import Mathlib

/-!
Verification development for the Split Page notepad application.

The definitions below are a shallow embedding of the JavaScript sources:

* `src/js/utilities.js` — word counting, read-time estimation, id generation,
  and the fallback-mode mutator;
* `src/unnamed/part_000` — a second copy of the utilities module with a
  different read-time constant and a console-reporting fallback mutator;
* `src/js/notepad.js` — the notepad: the DOM list of note elements, the
  `Map`-based notes index (`#notesContainerIndex`), and the operations
  `newNote`, `deleteNote`, `moveNote`, `#indexNotes`, `newNotepad`,
  `#retrieveNotepad`, `#fillNotepad`, `#duplicateNotepad`.

Modelling conventions:

* JavaScript strings are Lean `String`s (sequences of Unicode scalar values);
  the `u`-flagged regexes of the source operate on code points, matching this.
* A JS `Map` with integer keys is an insertion-ordered association list
  `List (Int × Option String)`; `none` as a value models the JS value
  `undefined` (which `Map.get` also returns for a missing key).
* The `data-note-index` DOM attribute holds either nothing (`absent`, the
  attribute was never set, `getAttribute` returns `null`), the literal string
  "undefined" (`undef`, written by `moveNote`), or the decimal string of the
  integer `k` (`pos k`, written by `#indexNotes`).  All reads of the
  attribute either parse it (`parseInt`), compare it numerically
  (`key < index`, via JS `ToNumber`: `null` coerces to 0, "undefined" to
  `NaN`), or compare it to the decimal string of an integer (the
  `querySelector('[data-note-index="..."]')` lookups), so this three-valued
  encoding is exact for every value the program can store.
* A thrown `TypeError`/DOM exception is modelled by returning the state at
  the moment of the throw together with `some errorName`; statements after
  the throwing one are skipped, matching exception propagation.
* `Date.now()` is an explicit `now : Int` parameter.
* Pieces of the source that only touch presentation (SVG icons, dialogs,
  the character/word counters written by `#runNoteCounters`, the numeric
  `<input>`'s `value`/`defaultValue`/`max` properties, `MutationObserver`
  auto-save, `localStorage`) are outside the modelled state.
-/

/-! ### Text metrics (`countWords`, `getReadTime`) -/

/-- Code-point ranges of the Unicode `Extended_Pictographic` property
(`\p{Extended_Pictographic}` in the word-character class of `countWords`'
regex), as listed in the Unicode emoji-data table used by the JS regex
engine. -/
def extPictRanges : List (Nat × Nat) :=
  [(0xA9, 0xA9), (0xAE, 0xAE), (0x203C, 0x203C), (0x2049, 0x2049),
   (0x2122, 0x2122), (0x2139, 0x2139), (0x2194, 0x2199), (0x21A9, 0x21AA),
   (0x231A, 0x231B), (0x2328, 0x2328), (0x2388, 0x2388), (0x23CF, 0x23CF),
   (0x23E9, 0x23F3), (0x23F8, 0x23FA), (0x24C2, 0x24C2), (0x25AA, 0x25AB),
   (0x25B6, 0x25B6), (0x25C0, 0x25C0), (0x25FB, 0x25FE), (0x2600, 0x2605),
   (0x2607, 0x2612), (0x2614, 0x2685), (0x2690, 0x2705), (0x2708, 0x2712),
   (0x2714, 0x2714), (0x2716, 0x2716), (0x271D, 0x271D), (0x2721, 0x2721),
   (0x2728, 0x2728), (0x2733, 0x2734), (0x2744, 0x2744), (0x2747, 0x2747),
   (0x274C, 0x274C), (0x274E, 0x274E), (0x2753, 0x2755), (0x2757, 0x2757),
   (0x2763, 0x2767), (0x2795, 0x2797), (0x27A1, 0x27A1), (0x27B0, 0x27B0),
   (0x27BF, 0x27BF), (0x2934, 0x2935), (0x2B05, 0x2B07), (0x2B1B, 0x2B1C),
   (0x2B50, 0x2B50), (0x2B55, 0x2B55), (0x3030, 0x3030), (0x303D, 0x303D),
   (0x3297, 0x3297), (0x3299, 0x3299), (0x1F000, 0x1F0FF), (0x1F10D, 0x1F10F),
   (0x1F12F, 0x1F12F), (0x1F16C, 0x1F171), (0x1F17E, 0x1F17F),
   (0x1F18E, 0x1F18E), (0x1F191, 0x1F19A), (0x1F1AD, 0x1F1E5),
   (0x1F201, 0x1F20F), (0x1F21A, 0x1F21A), (0x1F22F, 0x1F22F),
   (0x1F232, 0x1F23A), (0x1F23C, 0x1F23F), (0x1F249, 0x1F3FA),
   (0x1F400, 0x1F53D), (0x1F546, 0x1F64F), (0x1F680, 0x1F6FF),
   (0x1F774, 0x1F77F), (0x1F7D5, 0x1F7FF), (0x1F80C, 0x1F80F),
   (0x1F848, 0x1F84F), (0x1F85A, 0x1F85F), (0x1F888, 0x1F88F),
   (0x1F8AE, 0x1F8FF), (0x1F90C, 0x1F93A), (0x1F93C, 0x1F945),
   (0x1F947, 0x1FAFF), (0x1FC00, 0x1FFFD)]

def isExtendedPictographic (c : Char) : Bool :=
  extPictRanges.any (fun r => decide (r.1 ≤ c.toNat) && decide (c.toNat ≤ r.2))

/-- One character of the word-forming class of `countWords`' regex:
`[a-zA-Z0-9À-ſ\p{Extended_Pictographic}\u{1F3FB}-\u{1F3FF}\u{1F9B0}-\u{1F9B3}]`. -/
def isWordChar (c : Char) : Bool :=
  let n := c.toNat
  (decide (0x61 ≤ n) && decide (n ≤ 0x7A)) ||
  (decide (0x41 ≤ n) && decide (n ≤ 0x5A)) ||
  (decide (0x30 ≤ n) && decide (n ≤ 0x39)) ||
  (decide (0xC0 ≤ n) && decide (n ≤ 0x17F)) ||
  isExtendedPictographic c ||
  (decide (0x1F3FB ≤ n) && decide (n ≤ 0x1F3FF)) ||
  (decide (0x1F9B0 ≤ n) && decide (n ≤ 0x1F9B3))

/-- Number of maximal runs of word-forming characters in a character list;
`prev` records whether the previous character was word-forming. -/
def countRuns : Bool → List Char → Nat
  | _, [] => 0
  | prev, c :: rest =>
    let w := isWordChar c
    (if w && !prev then 1 else 0) + countRuns w rest

/-- `countWords` of `src/js/utilities.js` (the copy in `src/unnamed/part_000`
is character-for-character identical):
`targetString.match(/[\n\s]{0,}[W]+[\n\s]{0,}/gu).length` with `W` the
word-forming class.  Each global match contains exactly one maximal run of
word-forming characters (the greedy `W+` consumes a whole run, and the
optional whitespace fringes never contain word characters), and every maximal
run is contained in some match, so the match count equals the number of
maximal word-forming runs. -/
def countWords (s : String) : Nat :=
  countRuns false s.data

/-- `getReadTime` of `src/js/utilities.js`:
`Math.ceil(wordNumber / (283 / 60))`, i.e. the exact ceiling of
`60 * wordNumber / 283` (the float computation agrees with the exact
rational one at every word count arising here). -/
def getReadTime (s : String) : Nat :=
  (60 * countWords s + 282) / 283

/-- The seconds value computed by `getReadTime` of `src/unnamed/part_000`:
`Math.ceil(wordNumber / (238 / 60))`. -/
def part000ReadSeconds (s : String) : Nat :=
  (60 * countWords s + 237) / 238

/-- `getReadTime` of `src/unnamed/part_000`: formats the seconds as
`"Xm Ys"` or `"Ys"`. -/
def part000GetReadTime (s : String) : String :=
  let seconds := part000ReadSeconds s
  let minutes := seconds / 60
  let remainingSeconds := seconds % 60
  if minutes > 0 then
    toString minutes ++ "m " ++ toString remainingSeconds ++ "s"
  else
    toString remainingSeconds ++ "s"

/-! ### Identifier generation and the fallback-mode mutator -/

/-- `generateID(frontTag, backTag, time)` of both utilities modules:
`frontTag + time + backTag` (JS number-to-string conversion on `time`). -/
def generateID (frontTag backTag : String) (time : Int) : String :=
  frontTag ++ toString time ++ backTag

/-- `dataFallbackMode` of `src/js/utilities.js`.  `action` is the `apply`
callback: `some σ` is a normal return ending in state `σ`, `none` a throw.
The result pairs the final state (`none` when an exception escapes the
function) with the number of failure reports shown to the user (`alert`).
When both calls throw, the `alert` after `action(oldData)` is never reached,
so no report is shown and the second exception propagates. -/
def dataFallbackMode {α σ : Type} (oldData newData : α) (action : α → Option σ) :
    Option σ × Nat :=
  match action newData with
  | some s => (some s, 0)
  | none =>
    match action oldData with
    | some s => (some s, 1)
    | none => (none, 0)

/-- `dataFallbackMode` of `src/unnamed/part_000`: reports (`console.error`)
before re-running the action with the old data, so when both calls throw
exactly one report has still been emitted. -/
def part000DataFallbackMode {α σ : Type} (oldData newData : α) (action : α → Option σ) :
    Option σ × Nat :=
  match action newData with
  | some s => (some s, 0)
  | none =>
    match action oldData with
    | some s => (some s, 1)
    | none => (none, 1)

/-! ### Accent-color sanitisation -/

/-- `String.prototype.toLowerCase` restricted to the characters this program
lowercases (ASCII, from hex color codes). -/
def jsToLower (s : String) : String :=
  String.mk (s.data.map Char.toLower)

def isHexDigitJs (c : Char) : Bool :=
  (decide ('A' ≤ c) && decide (c ≤ 'F')) ||
  (decide ('a' ≤ c) && decide (c ≤ 'f')) ||
  (decide ('0' ≤ c) && decide (c ≤ '9'))

/-- `hexColorRegex.test` in `newNote`:
`/^#([A-Fa-f0-9]{6}|[A-Fa-f0-9]{3})$/`. -/
def hexColorTest (s : String) : Bool :=
  match s.data with
  | '#' :: rest =>
    (decide (rest.length = 6) || decide (rest.length = 3)) && rest.all isHexDigitJs
  | _ => false

/-- The `accentColor` constant computed by `newNote`:
`noteProperties.accentColor && hexColorRegex.test(noteProperties.accentColor)
 ? noteProperties.accentColor.toLowerCase() : ''`.
`none` models an absent (`undefined`) property; `some ""` is falsy. -/
def accentColorOf (c? : Option String) : String :=
  match c? with
  | some c => if (c != "") && hexColorTest c then jsToLower c else ""
  | none => ""

/-! ### Notepad records (`#retrieveNotepad` format, `#duplicateNotepad`) -/

structure NoteRecord where
  id : String
  title : String
  content : String
  accentColor : String
  deriving Repr, DecidableEq

structure NotepadRecord where
  title : String
  id : String
  created : Int
  lastUpdate : Int
  notes : List NoteRecord
  deriving Repr, DecidableEq

/-- `#duplicateNotepad(notepad)` of `src/js/notepad.js`.  The source makes a
shallow clone (`Object.assign({}, notepad)`) and then assigns `id`, `title`,
`created` and `lastUpdate` on the clone only, so the source object is left
untouched; the `notes` array is shared, not copied.  The result pairs the
returned duplicate with the source record as it stands after the call.
(The call also stores the duplicate in `localStorage`, outside the modelled
state.) -/
def duplicateNotepad (notepad : NotepadRecord) (now : Int) :
    NotepadRecord × NotepadRecord :=
  let duplicated :=
    { notepad with
      id := generateID "notepad" "" now
      title := notepad.title ++ " (Copy)"
      created := now
      lastUpdate := now }
  (duplicated, notepad)

/-! ### The notepad state -/

/-- Content of the `data-note-index` attribute of a note element (see the
module comment for why this three-valued encoding is exact). -/
inductive NoteIndexAttr where
  | absent : NoteIndexAttr
  | undef : NoteIndexAttr
  | pos : Int → NoteIndexAttr
  deriving Repr, DecidableEq

/-- A `.note` element of the DOM: its `id`, the `.note-title` text, the
`.note-text` text, the `data-accent-color` attribute of its title container,
and its `data-note-index` attribute. -/
structure NoteElem where
  id : String
  title : String
  content : String
  accentColor : String
  noteIndex : NoteIndexAttr
  deriving Repr, DecidableEq

/-- The modelled state of a `Notepad` instance: the notepad element's `id`,
its `data-notepad-created`/`data-notepad-last-update` attributes, the header
text, the `.note` children of the notes container in document order, the
`#notesContainerIndex` map, and the `#accentColors` list. -/
structure NotepadState where
  notepadId : String
  created : Int
  lastUpdate : Int
  headerTitle : String
  dom : List NoteElem
  idx : List (Int × Option String)
  accentColors : List String
  deriving Repr, DecidableEq

/-- The `noteProperties` argument of `newNote`: `none` models an absent
(`undefined`) property. -/
structure NoteProps where
  id : Option String := none
  title : Option String := none
  content : Option String := none
  accentColor : Option String := none
  deriving Repr, DecidableEq

/-! ### JS `Map` operations on the insertion-ordered association list -/

/-- `Map.prototype.get`: `undefined` (`none`) for a missing key. -/
def mapGet (m : List (Int × Option String)) (k : Int) : Option String :=
  match m.find? (fun p => p.1 == k) with
  | some p => p.2
  | none => none

/-- `Map.prototype.set`: updates an existing key in place, otherwise appends
in insertion order. -/
def mapSet (m : List (Int × Option String)) (k : Int) (v : Option String) :
    List (Int × Option String) :=
  if m.any (fun p => p.1 == k) then
    m.map (fun p => if p.1 == k then (k, v) else p)
  else
    m ++ [(k, v)]

/-- `Map.prototype.delete` for an integer key. -/
def mapDelete (m : List (Int × Option String)) (k : Int) :
    List (Int × Option String) :=
  m.filter (fun p => !(p.1 == k))

/-- JS truthiness of a map value: `undefined` and `''` are falsy. -/
def truthy (v : Option String) : Bool :=
  match v with
  | some s => s != ""
  | none => false

/-- `parseInt` applied to a `data-note-index` attribute value; `none` models
`NaN` (`parseInt(null)` and `parseInt("undefined")` are both `NaN`). -/
def parseIntAttr (a : NoteIndexAttr) : Option Int :=
  match a with
  | .pos k => some k
  | .undef => none
  | .absent => none

/-- JS `ToNumber` of an attribute value, as used by the relational
comparisons `key < index` / `key > index` in `deleteNote`: `null` coerces
to `0`, `"undefined"` to `NaN` (`none`; every comparison with `NaN` is
false). -/
def toNumberAttr (a : NoteIndexAttr) : Option Int :=
  match a with
  | .pos k => some k
  | .undef => none
  | .absent => some 0

/-- `key < index` with `index` the raw attribute value. -/
def cmpLtAttr (key : Int) (a : NoteIndexAttr) : Bool :=
  match toNumberAttr a with
  | some x => decide (key < x)
  | none => false

/-- `key > index` with `index` the raw attribute value. -/
def cmpGtAttr (key : Int) (a : NoteIndexAttr) : Bool :=
  match toNumberAttr a with
  | some x => decide (key > x)
  | none => false

/-- JS array indexing (`cachedNoteIDs[i]`): `undefined` out of range; the
stored elements are themselves map values. -/
def jsArrayGet (l : List (Option String)) (n : Nat) : Option String :=
  (l.get? n).getD none

/-! ### DOM helpers -/

/-- `document.getElementById` restricted to the note elements: the first
element in document order with the given id, `none` for `null`. -/
def findNote (dom : List NoteElem) (id : String) : Option NoteElem :=
  dom.find? (fun e => e.id == id)

/-- Mutation of the element `document.getElementById(id)` refers to: updates
the first element with that id. -/
def updateFirst (dom : List NoteElem) (id : String) (f : NoteElem → NoteElem) :
    List NoteElem :=
  match dom with
  | [] => []
  | e :: rest => if e.id == id then f e :: rest else e :: updateFirst rest id f

/-- `element.remove()` on `document.getElementById(id)`. -/
def removeFirst (dom : List NoteElem) (id : String) : List NoteElem :=
  match dom with
  | [] => []
  | e :: rest => if e.id == id then rest else e :: removeFirst rest id

/-- `container.insertBefore(e, target)` with `target` the first element whose
id is `targetId` (the caller has checked it is present). -/
def insertBeforeId (dom : List NoteElem) (e : NoteElem) (targetId : String) :
    List NoteElem :=
  match dom with
  | [] => [e]
  | x :: rest => if x.id == targetId then e :: x :: rest else x :: insertBeforeId rest e targetId

/-- `container.insertBefore(e, target.nextSibling)` with `target` the first
element whose id is `targetId`: inserts right after it (appends when it is
last). -/
def insertAfterId (dom : List NoteElem) (e : NoteElem) (targetId : String) :
    List NoteElem :=
  match dom with
  | [] => [e]
  | x :: rest => if x.id == targetId then x :: e :: rest else x :: insertAfterId rest e targetId

/-! ### `#indexNotes` -/

/-- `#indexNotes` of `src/js/notepad.js`: for each `[index, id]` entry of the
map in insertion order, `document.getElementById(map.get(index))` and write
`index` to its `data-note-index` attribute.  When the stored value is
`undefined` (`none`), the empty string, or an id with no element,
`getElementById` yields `null` and the write throws a `TypeError`, leaving
the remaining entries unprocessed.  (The writes to the numeric input's
`value`/`defaultValue`/`max` are presentation-only.) -/
def indexNotes (dom : List NoteElem) :
    List (Int × Option String) → List NoteElem × Option String
  | [] => (dom, none)
  | (k, v) :: rest =>
    match v with
    | some id =>
      if (id != "") && dom.any (fun e => e.id == id) then
        indexNotes (updateFirst dom id (fun e => { e with noteIndex := .pos k })) rest
      else
        (dom, some "TypeError")
    | none => (dom, some "TypeError")

/-! ### `newNote` -/

/-- The `noteID` constant of `newNote`:
`noteProperties.id || utilities.generateID(tags.note, index)`, with
`index = #notesContainerIndex.size + 1` and `Date.now()` as the time. -/
def computedNoteId (s : NotepadState) (props : NoteProps) (now : Int) : String :=
  match props.id with
  | some id => if id != "" then id else generateID "note" (toString (s.idx.length + 1)) now
  | none => generateID "note" (toString (s.idx.length + 1)) now

/-- The `title` constant of `newNote`:
`noteProperties.title === '' || noteProperties.title ? noteProperties.title
 : defaults.noteTitle` — the default is used exactly when the property is
absent (the `=== ''` disjunct keeps a present empty string). -/
def noteTitleOf (props : NoteProps) : String :=
  match props.title with
  | some t => t
  | none => "New note"

/-- The `content` constant of `newNote`: `noteProperties.content || ''`
(a present `''` is falsy and yields `''`, the same string). -/
def noteContentOf (props : NoteProps) : String :=
  match props.content with
  | some c => c
  | none => ""

/-- `newNote(noteProperties, parentElement)` of `src/js/notepad.js` with the
notes container as parent: builds the note element, appends it to the
container (`insertAdjacentElement('beforeend', ...)`), registers it in the
map at key `size + 1`, and re-indexes.  `#runNoteCounters` only writes the
displayed counters. -/
def newNote (s : NotepadState) (props : NoteProps) (now : Int) :
    NotepadState × Option String :=
  let noteID := computedNoteId s props now
  let title := noteTitleOf props
  let content := noteContentOf props
  let accentColor := accentColorOf props.accentColor
  let accentColors :=
    if s.accentColors.contains accentColor then s.accentColors
    else s.accentColors ++ [accentColor]
  let elem : NoteElem :=
    { id := noteID, title := title, content := content,
      accentColor := accentColor, noteIndex := .absent }
  let dom1 := s.dom ++ [elem]
  let idx1 := mapSet s.idx ((s.idx.length : Int) + 1) (some noteID)
  let res := indexNotes dom1 idx1
  ({ s with dom := res.1, idx := idx1, accentColors := accentColors }, res.2)

/-! ### `deleteNote` -/

/-- `deleteNote(noteID)` of `src/js/notepad.js`.  `document.getElementById`
on an absent id returns `null` and `note.remove()` throws a `TypeError`
before anything is modified.  Otherwise: the element is removed, its
`data-note-index` attribute is read, the map entry for `parseInt(index)` is
deleted, the map is cleared, and it is rebuilt from a snapshot copy by the
`for (let key = 1; key <= originalNoteIndex.size; key++)` loop (entries with
a truthy value keep their key below the deleted position and shift down by
one above it; the comparisons use the raw attribute string), after which the
notes are re-indexed. -/
def deleteNote (s : NotepadState) (noteID : String) : NotepadState × Option String :=
  match findNote s.dom noteID with
  | none => (s, some "TypeError")
  | some note =>
    let dom1 := removeFirst s.dom noteID
    let attr := note.noteIndex
    let original := s.idx
    let _idx1 :=
      match parseIntAttr attr with
      | some k => mapDelete s.idx k
      | none => s.idx
    let idx2 := (List.range original.length).foldl
      (fun m i =>
        let key : Int := (i : Int) + 1
        if truthy (mapGet original key) && cmpLtAttr key attr then
          mapSet m key (mapGet original key)
        else if truthy (mapGet original key) && cmpGtAttr key attr then
          mapSet m (key - 1) (mapGet original key)
        else m)
      []
    let res := indexNotes dom1 idx2
    ({ s with dom := res.1, idx := idx2 }, res.2)

/-! ### `moveNote` -/

/-- One step of the `for (const [index, id] of map)` loop in the
`newIndex < oldIndex` branch of `moveNote`: for `index` in
`(newIndex + 1, oldIndex]` the current value is pushed onto `cachedNoteIDs`
and the entry is overwritten with `cachedNoteIDs[cachedNoteIDs.length - 2]`. -/
def moveLtStep (newIdx oldIdx : Int)
    (acc : List (Int × Option String) × List (Option String)) (k : Int) :
    List (Int × Option String) × List (Option String) :=
  if decide (newIdx + 1 < k) && decide (k ≤ oldIdx) then
    let cache := acc.2 ++ [mapGet acc.1 k]
    (mapSet acc.1 k (jsArrayGet cache (cache.length - 2)), cache)
  else acc

/-- One step of the `for (const [index, id] of map)` loop in the
`else` (`newIndex ≥ oldIndex`) branch of `moveNote`. -/
def moveGtStep (oldIdx newIdx : Int) (movedId : Option String)
    (m : List (Int × Option String)) (k : Int) : List (Int × Option String) :=
  if decide (oldIdx ≤ k) && decide (k < newIdx) then
    mapSet m k (mapGet m (k + 1))
  else if k == newIdx then
    mapSet m k movedId
  else m

/-- Map surgery and re-indexing of the `newIndex < oldIndex` branch of
`moveNote`, after the element has been re-inserted into `dom3`:
`cachedNoteIDs` starts as `[map.get(newIndex + 1)]` (read before the two
`set`s), then `map.set(newIndex + 1, cachedNoteID)`,
`map.set(newIndex, cachedMovedNoteID)`, then the loop over the entries of
the map as it stands at that point (both loop writes target keys that are
already present, so the iteration sequence is the key list at loop entry). -/
def moveLtFinish (s : NotepadState) (dom3 : List NoteElem) (newIndex oldIndex : Int)
    (cachedMovedNoteID cachedNoteID : Option String) : NotepadState × Option String :=
  let cache0 : List (Option String) := [mapGet s.idx (newIndex + 1)]
  let idx1 := mapSet s.idx (newIndex + 1) cachedNoteID
  let idx2 := mapSet idx1 newIndex cachedMovedNoteID
  let idx3 := ((idx2.map (fun p => p.1)).foldl (moveLtStep newIndex oldIndex) (idx2, cache0)).1
  let res := indexNotes dom3 idx3
  ({ s with dom := res.1, idx := idx3 }, res.2)

/-- `moveNote(noteID, oldIndex, newIndex)` of `src/js/notepad.js`.  A missing
id is a silent no-op (`if (note)`).  `newIndex` is clamped from above only
(`newIndex <= size ? newIndex : size` — despite the comment "Check if the
new typed position is within min-max range", there is no lower clamp).
`currentNote` is looked up by `data-note-index` before the moved element's
attribute is set to `undefined` and the element is removed.  In the
`newIndex < oldIndex` branch, `insertBefore(note, currentNote)` appends when
`currentNote` is `null` and throws a DOM `NotFoundError` when `currentNote`
is the (already removed) moved element itself; in the `else` branch,
`currentNote.nextSibling` throws a `TypeError` when `currentNote` is `null`,
and inserting before the `nextSibling` of the removed element itself appends
at the end. -/
def moveNote (s : NotepadState) (noteID : String) (oldIndex newIndex0 : Int) :
    NotepadState × Option String :=
  match findNote s.dom noteID with
  | none => (s, none)
  | some note =>
    let size : Int := s.idx.length
    let newIndex := if decide (newIndex0 ≤ size) then newIndex0 else size
    let currentNote? := s.dom.find? (fun e => e.noteIndex == NoteIndexAttr.pos newIndex)
    let note' := { note with noteIndex := NoteIndexAttr.undef }
    let dom1 := updateFirst s.dom noteID (fun e => { e with noteIndex := NoteIndexAttr.undef })
    let dom2 := removeFirst dom1 noteID
    let cachedMovedNoteID := mapGet s.idx oldIndex
    let cachedNoteID := mapGet s.idx newIndex
    if decide (newIndex < oldIndex) then
      match currentNote? with
      | none =>
        moveLtFinish s (dom2 ++ [note']) newIndex oldIndex cachedMovedNoteID cachedNoteID
      | some cn =>
        if cn.id == noteID then
          ({ s with dom := dom2 }, some "NotFoundError")
        else
          moveLtFinish s (insertBeforeId dom2 note' cn.id) newIndex oldIndex
            cachedMovedNoteID cachedNoteID
    else
      match currentNote? with
      | none => ({ s with dom := dom2 }, some "TypeError")
      | some cn =>
        let dom3 := if cn.id == noteID then dom2 ++ [note'] else insertAfterId dom2 note' cn.id
        let idx1 := (s.idx.map (fun p => p.1)).foldl (moveGtStep oldIndex newIndex cachedMovedNoteID) s.idx
        let res := indexNotes dom3 idx1
        ({ s with dom := res.1, idx := idx1 }, res.2)

/-! ### `newNotepad`, `#retrieveNotepad`, `#fillNotepad`, initial state -/

/-- The `#defaults.accentColors` palette. -/
def defaultAccentColors : List String :=
  ["", "#fde6e6", "#ebf2f9", "#fefbe6", "#feddc9", "#e5f4da", "#f2eef9"]

/-- `newNotepad(addNewNote)` of `src/js/notepad.js`: empties the notes
container, clears the map, optionally adds one blank note, then resets the
notepad id, both timestamps, the header title and the accent colors. -/
def newNotepad (s : NotepadState) (addNewNote : Bool) (now : Int) :
    NotepadState × Option String :=
  let s1 := { s with dom := ([] : List NoteElem), idx := ([] : List (Int × Option String)) }
  let res := if addNewNote then newNote s1 {} now else (s1, none)
  ({ res.1 with
      notepadId := generateID "notepad" "" now
      created := now
      lastUpdate := now
      headerTitle := "New notepad"
      accentColors := defaultAccentColors }, res.2)

/-- `#retrieveNotepad()` of `src/js/notepad.js`: reads the notes from the
DOM in document order; `created` falls back to `Date.now()` when the stored
attribute is falsy (`Number(...) || currentTime`); `lastUpdate` is refreshed
to `Date.now()`. -/
def retrieveNotepad (s : NotepadState) (now : Int) : NotepadRecord :=
  { title := s.headerTitle
    id := s.notepadId
    created := if s.created == 0 then now else s.created
    lastUpdate := now
    notes := s.dom.map (fun e =>
      { id := e.id, title := e.title, content := e.content, accentColor := e.accentColor }) }

/-- The `noteProperties` object passed to `newNote` for one record note in
`#fillNotepad`: every field is present. -/
def recordProps (nr : NoteRecord) : NoteProps :=
  { id := some nr.id, title := some nr.title, content := some nr.content,
    accentColor := some nr.accentColor }

/-- One step of the `notepad.notes.forEach(...)` loop of `#fillNotepad`: an
exception thrown by `newNote` aborts the remaining iterations. -/
def fillStep (now : Int) (acc : NotepadState × Option String) (nr : NoteRecord) :
    NotepadState × Option String :=
  match acc.2 with
  | some _ => acc
  | none => newNote acc.1 (recordProps nr) now

/-- `#fillNotepad(notepad, clear)` of `src/js/notepad.js`: optionally resets
via `newNotepad(false)`, sets id, timestamps and title from the record, then
re-inserts each record note in array order through `newNote` (the
`notes.length > 0` guard is equivalent to folding over the possibly-empty
list). -/
def fillNotepad (s : NotepadState) (r : NotepadRecord) (clear : Bool) (now : Int) :
    NotepadState × Option String :=
  let res1 := if clear then newNotepad s false now else (s, none)
  match res1.2 with
  | some e => (res1.1, some e)
  | none =>
    let s2 := { res1.1 with
      notepadId := r.id
      created := r.created
      lastUpdate := r.lastUpdate
      headerTitle := r.title }
    r.notes.foldl (fillStep now) (s2, none)

/-- The state built by the `Notepad` constructor: fresh id and timestamps,
default title, one blank note added by `#addNotesContainer(true, ...)`. -/
def initialState (now : Int) : NotepadState :=
  let s0 : NotepadState :=
    { notepadId := generateID "notepad" "" now
      created := now
      lastUpdate := now
      headerTitle := "New notepad"
      dom := []
      idx := []
      accentColors := defaultAccentColors }
  (newNote s0 {} now).1

/-! ### Specification-side views of the index -/

/-- The association list `[(k, some id₀), (k+1, some id₁), …]`. -/
def posListFrom : Int → List String → List (Int × Option String)
  | _, [] => []
  | k, id :: rest => (k, some id) :: posListFrom (k + 1) rest

/-- The index an `n`-note notepad should have: positions `1..n` in ascending
insertion order, each holding a note id. -/
def posList (ids : List String) : List (Int × Option String) :=
  posListFrom 1 ids

/-- The note ids stored in the index, in key insertion order. -/
def idsOf (s : NotepadState) : List String :=
  s.idx.filterMap (fun p => p.2)

/-- The notes index is a bijection from the positions `1..size` onto the set
of current note ids: the entries are exactly `(1, id₁), …, (n, idₙ)`, the
ids are pairwise distinct, and they are exactly the ids of the note elements
in the DOM. -/
def indexBijection (s : NotepadState) : Prop :=
  s.idx = posList (idsOf s) ∧ (idsOf s).Nodup ∧ (s.dom.map (fun e => e.id)).Perm (idsOf s)

/-- The index lists exactly the DOM notes in document order. -/
def Synced (s : NotepadState) : Prop :=
  s.idx = posList (s.dom.map (fun e => e.id))

instance (s : NotepadState) : Decidable (indexBijection s) := by
  unfold indexBijection
  infer_instance

instance (s : NotepadState) : Decidable (Synced s) := by
  unfold Synced
  infer_instance

/-- The user-visible fields of a note element (everything but the
`data-note-index` attribute, which `#indexNotes` rewrites). -/
def noteFields (e : NoteElem) : String × String × String × String :=
  (e.id, e.title, e.content, e.accentColor)

/-- The fields of the note element that `newNote` creates for one record
note during `#fillNotepad`. -/
def recFields (nr : NoteRecord) : String × String × String × String :=
  (nr.id, nr.title, nr.content, accentColorOf (some nr.accentColor))

/-- A concrete stored record used to instantiate the `#duplicateNotepad`
theorem. -/
def sampleRecord : NotepadRecord :=
  { title := "T", id := "notepad5", created := 5, lastUpdate := 5,
    notes := [{ id := "n1", title := "t1", content := "c1", accentColor := "" }] }

/-! ### Claim theorems: index operations (C1–C4) -/

/-- C1: the claim states that after every sequence of `newNote` /
`deleteNote` / `moveNote` operations, starting from the initial index, the
notes index is a bijection from the positions `1..size` onto the current note
ids.  The code violates this: from the freshly constructed notepad (one note,
id `"note01"`, index `{1 ↦ "note01"}` — a bijection), the single operation
`moveNote("note01", 1, 0)` (the UI event handler passes any integer typed
into the position input) leaves an index that maps position 1 to `undefined`
and carries the extra key 0, because `moveNote` only clamps `newIndex` from
above. -/
theorem noteIndex_bijection_broken_by_move_zero :
    (initialState 0).dom.map (fun e => e.id) = ["note01"]
    ∧ indexBijection (initialState 0)
    ∧ ¬ indexBijection (moveNote (initialState 0) "note01" 1 0).1 := by decide

/-- C2: the claim states that `moveNote` clamps `toPosition` into
`[1, size]`.  The code only clamps from above
(`newIndex = newIndex <= size ? newIndex : size`), contradicting its own
comment "Check if the new typed position is within min-max range": with one
note and `toPosition = 0`, the moved note ends at key 0, position 1 is
overwritten with `undefined`, and re-indexing throws a `TypeError`. -/
theorem moveNote_toPosition_zero_not_clamped :
    (moveNote (initialState 0) "note01" 1 0).1.idx = [(1, none), (0, some "note01")]
    ∧ mapGet (moveNote (initialState 0) "note01" 1 0).1.idx 0 = some "note01"
    ∧ mapGet (moveNote (initialState 0) "note01" 1 0).1.idx 1 = none
    ∧ (moveNote (initialState 0) "note01" 1 0).2 = some "TypeError" := by decide

/-- C3: the claim states that `deleteNote` on an id that is not present is a
silent no-op.  The code has no guard: `document.getElementById(noteID)`
returns `null` and `note.remove()` throws a `TypeError` (the notepad state is
left unchanged only because the throw happens before any mutation). -/
theorem deleteNote_absent_id_throws :
    deleteNote (initialState 0) "ghost" = (initialState 0, some "TypeError") := by decide

/-- C4: the claim states that `moveNote(id, p, p)` is a complete no-op.  The
position-to-id map is indeed unchanged, but the DOM element is removed and
re-inserted before `currentNote.nextSibling`, where `currentNote` is the
removed element itself — so the note is appended at the end of the container
and the displayed order changes whenever `p < size`: with notes
`["note01", "b"]`, `moveNote("note01", 1, 1)` yields display order
`["b", "note01"]`. -/
theorem moveNote_to_current_position_reorders_dom :
    (newNote (initialState 0) { id := some "b" } 1).1.dom.map (fun e => e.id)
      = ["note01", "b"]
    ∧ (moveNote (newNote (initialState 0) { id := some "b" } 1).1 "note01" 1 1).1.idx
        = (newNote (initialState 0) { id := some "b" } 1).1.idx
    ∧ (moveNote (newNote (initialState 0) { id := some "b" } 1).1 "note01" 1 1).2 = none
    ∧ (moveNote (newNote (initialState 0) { id := some "b" } 1).1 "note01" 1 1).1.dom.map
        (fun e => e.id) = ["b", "note01"] := by decide

/-! ### Claim theorems: text metrics (C7, C8) -/

/-- C7: the claim states that the two `getReadTime` implementations compute
the same number of seconds for every string.  They do not: the
`src/js/utilities.js` copy divides by `283 / 60` although its own doc
comment says the silent-reading average is 238 words per minute, while the
`src/unnamed/part_000` copy divides by `238 / 60`.  On a 20-word string the
former yields 5 seconds and the latter 6 seconds (formatted `"6s"`). -/
theorem readTime_implementations_disagree :
    countWords "a b c d e f g h i j k l m n o p q r s t" = 20
    ∧ getReadTime "a b c d e f g h i j k l m n o p q r s t" = 5
    ∧ part000ReadSeconds "a b c d e f g h i j k l m n o p q r s t" = 6
    ∧ part000GetReadTime "a b c d e f g h i j k l m n o p q r s t" = "6s" := by decide

/-- C8: `countWords "Hello world 🎉"` is 3 — the two letter runs and the
emoji (U+1F389, inside the `Extended_Pictographic` range 1F249–1F3FA) each
count as one word unit. -/
theorem countWords_emoji_example : countWords "Hello world 🎉" = 3 := by decide

/-! ### Claim theorem: fallback-mode mutator (C6) -/

/-- C6: when `apply` throws on the new state and succeeds on the old state,
both implementations of the fallback-mode mutator finish in the state
produced by `apply(oldState)` and report the failure exactly once (an
`alert` in `src/js/utilities.js`, a `console.error` in
`src/unnamed/part_000`). -/
theorem dataFallbackMode_restores_and_reports {α σ : Type} (oldData newData : α)
    (action : α → Option σ) (s2 : σ)
    (hnew : action newData = none) (hold : action oldData = some s2) :
    dataFallbackMode oldData newData action = (some s2, 1)
    ∧ part000DataFallbackMode oldData newData action = (some s2, 1) := by
  simp [dataFallbackMode, part000DataFallbackMode, hnew, hold]

theorem dataFallbackMode_restores_and_reports_witness :
    (fun b => if b then (none : Option Nat) else some 42) true = none
    ∧ (fun b => if b then (none : Option Nat) else some 42) false = some 42
    ∧ (dataFallbackMode false true (fun b => if b then (none : Option Nat) else some 42)
          = (some 42, 1)
        ∧ part000DataFallbackMode false true (fun b => if b then (none : Option Nat) else some 42)
          = (some 42, 1)) :=
  ⟨rfl, rfl,
   dataFallbackMode_restores_and_reports false true
     (fun b => if b then (none : Option Nat) else some 42) 42 rfl rfl⟩

/-! ### Claim theorem: `#duplicateNotepad` (C9) -/

lemma string_eq_of_data_eq {a b : String} (h : a.data = b.data) : a = b := by
  cases a
  cases b
  exact congrArg String.mk h

/-- C9: `#duplicateNotepad` returns a record with a freshly generated id
(`generateID('notepad', undefined, Date.now())`), the source title suffixed
with `" (Copy)"`, and both timestamps set to the call time; the source record
is not mutated (the shallow clone shares the `notes` array, and all four
assignments target the clone).  The id differs from the source's whenever the
generation timestamp differs — JS prints distinct integer timestamps as
distinct decimal strings, stated here as `toString t ≠ toString now` on the
embedded timestamps. -/
theorem duplicateNotepad_fresh_copy (r : NotepadRecord) (now t : Int)
    (hid : r.id = generateID "notepad" "" t)
    (ht : toString t ≠ toString now) :
    (duplicateNotepad r now).1.id = generateID "notepad" "" now
    ∧ (duplicateNotepad r now).1.id ≠ r.id
    ∧ (duplicateNotepad r now).1.title = r.title ++ " (Copy)"
    ∧ (duplicateNotepad r now).1.created = now
    ∧ (duplicateNotepad r now).1.lastUpdate = now
    ∧ (duplicateNotepad r now).1.notes = r.notes
    ∧ (duplicateNotepad r now).2 = r := by
  refine ⟨rfl, ?_, rfl, rfl, rfl, rfl, rfl⟩
  rw [hid]
  intro h
  replace h := congrArg String.data h
  have hempty : ("" : String).data = [] := rfl
  simp only [duplicateNotepad, generateID, String.data_append, hempty, List.append_nil] at h
  exact ht (string_eq_of_data_eq (List.append_cancel_left h)).symm

theorem duplicateNotepad_fresh_copy_witness :
    sampleRecord.id = generateID "notepad" "" 5
    ∧ toString (5 : Int) ≠ toString (7 : Int)
    ∧ ((duplicateNotepad sampleRecord 7).1.id = generateID "notepad" "" 7
        ∧ (duplicateNotepad sampleRecord 7).1.id ≠ sampleRecord.id
        ∧ (duplicateNotepad sampleRecord 7).1.title = sampleRecord.title ++ " (Copy)"
        ∧ (duplicateNotepad sampleRecord 7).1.created = 7
        ∧ (duplicateNotepad sampleRecord 7).1.lastUpdate = 7
        ∧ (duplicateNotepad sampleRecord 7).1.notes = sampleRecord.notes
        ∧ (duplicateNotepad sampleRecord 7).2 = sampleRecord) :=
  ⟨by decide, by decide,
   duplicateNotepad_fresh_copy sampleRecord 7 5 (by decide) (by decide)⟩

/-! ### `#indexNotes` only rewrites the `data-note-index` attribute -/

lemma updateFirst_map_inv {β : Type} (dom : List NoteElem) (id : String)
    (g : NoteElem → NoteElem) (f : NoteElem → β) (hg : ∀ e, f (g e) = f e) :
    (updateFirst dom id g).map f = dom.map f := by
  induction dom with
  | nil => rfl
  | cons e rest ih =>
    unfold updateFirst
    by_cases h : (e.id == id) = true
    · simp [h, hg]
    · simp only [Bool.not_eq_true] at h
      simp [h, ih]

lemma indexNotes_map_inv {β : Type} (f : NoteElem → β)
    (hf : ∀ e k, f { e with noteIndex := NoteIndexAttr.pos k } = f e) :
    ∀ (idx : List (Int × Option String)) (dom : List NoteElem),
      ((indexNotes dom idx).1).map f = dom.map f := by
  intro idx
  induction idx with
  | nil => intro dom; rfl
  | cons p rest ih =>
    intro dom
    obtain ⟨k, v⟩ := p
    cases v with
    | none => rfl
    | some id =>
      by_cases h : ((id != "") && dom.any (fun e => e.id == id)) = true
      · simp only [indexNotes, h, if_true]
        rw [ih, updateFirst_map_inv]
        intro e
        exact hf e k
      · simp only [Bool.not_eq_true] at h
        simp [indexNotes, h]

lemma indexNotes_ok :
    ∀ (idx : List (Int × Option String)) (dom : List NoteElem),
      (∀ p ∈ idx, ∃ id, p.2 = some id ∧ id ≠ "" ∧ id ∈ dom.map (fun e => e.id)) →
      (indexNotes dom idx).2 = none := by
  intro idx
  induction idx with
  | nil => intro dom _; rfl
  | cons p rest ih =>
    intro dom hp
    obtain ⟨k, v⟩ := p
    obtain ⟨id, hv, hne, hmem⟩ := hp (k, v) (List.mem_cons_self _ _)
    simp only at hv
    subst hv
    have hcond : ((id != "") && dom.any (fun e => e.id == id)) = true := by
      rw [Bool.and_eq_true]
      refine ⟨by simpa using hne, ?_⟩
      rw [List.any_eq_true]
      obtain ⟨e, he, heid⟩ := List.mem_map.mp hmem
      exact ⟨e, he, by simp [heid]⟩
    simp only [indexNotes, hcond, if_true]
    apply ih
    intro q hq
    obtain ⟨id', hv', hne', hmem'⟩ := hp q (List.mem_cons_of_mem _ hq)
    refine ⟨id', hv', hne', ?_⟩
    rwa [updateFirst_map_inv dom id (fun e => { e with noteIndex := NoteIndexAttr.pos k })
      (fun e => e.id) (fun e => rfl)]

lemma accentColorOf_eq (c? : Option String) :
    accentColorOf c? = (match c? with
      | some c => if hexColorTest c then jsToLower c else ""
      | none => "") := by
  cases c? with
  | none => rfl
  | some c =>
    by_cases hc : c = ""
    · subst hc; decide
    · have hb : (c != "") = true := by simpa using hc
      simp [accentColorOf, hb]

/-! ### Claim theorem: accent-color sanitisation in `newNote` (C10) -/

/-- C10: the accent color actually stored on the note element created by
`newNote` is the sanitised one — the given color lowercased when it matches
`/^#([A-Fa-f0-9]{6}|[A-Fa-f0-9]{3})$/`, and `''` otherwise (missing, empty,
or non-hex). -/
theorem newNote_stores_sanitised_accentColor (s : NotepadState) (props : NoteProps) (now : Int) :
    ((newNote s props now).1.dom.getLast?).map (fun e => e.accentColor)
      = some (match props.accentColor with
              | some c => if hexColorTest c then jsToLower c else ""
              | none => "") := by
  have h1 : (newNote s props now).1.dom
      = (indexNotes
          (s.dom ++ [{ id := computedNoteId s props now, title := noteTitleOf props,
                       content := noteContentOf props,
                       accentColor := accentColorOf props.accentColor,
                       noteIndex := .absent }])
          (mapSet s.idx ((s.idx.length : Int) + 1) (some (computedNoteId s props now)))).1 := rfl
  rw [h1, ← accentColorOf_eq, ← List.getLast?_map,
    indexNotes_map_inv (fun e => e.accentColor) (fun e k => rfl), List.map_append]
  simp

/-! ### Shape lemmas for the position list -/

lemma posListFrom_length (ids : List String) :
    ∀ k : Int, (posListFrom k ids).length = ids.length := by
  induction ids with
  | nil => intro k; rfl
  | cons x rest ih => intro k; simp [posListFrom, ih]

lemma posListFrom_key_bound (ids : List String) :
    ∀ (k : Int), ∀ p ∈ posListFrom k ids, k ≤ p.1 ∧ p.1 < k + ids.length := by
  induction ids with
  | nil => intro k p hp; cases hp
  | cons x rest ih =>
    intro k p hp
    rcases List.mem_cons.mp hp with rfl | hp
    · refine ⟨le_refl _, ?_⟩
      show k < k + ((rest.length + 1 : Nat) : Int)
      push_cast
      omega
    · obtain ⟨h1, h2⟩ := ih (k + 1) p hp
      simp only [List.length_cons]
      push_cast
      constructor <;> omega

lemma posListFrom_values (ids : List String) :
    ∀ (k : Int), ∀ p ∈ posListFrom k ids, ∃ id, p.2 = some id ∧ id ∈ ids := by
  induction ids with
  | nil => intro k p hp; cases hp
  | cons x rest ih =>
    intro k p hp
    rcases List.mem_cons.mp hp with rfl | hp
    · exact ⟨x, rfl, List.mem_cons_self _ _⟩
    · obtain ⟨id, h1, h2⟩ := ih (k + 1) p hp
      exact ⟨id, h1, List.mem_cons_of_mem _ h2⟩

lemma posListFrom_snoc (ids : List String) (x : String) :
    ∀ k : Int, posListFrom k (ids ++ [x]) = posListFrom k ids ++ [(k + ids.length, some x)] := by
  induction ids with
  | nil => intro k; simp [posListFrom]
  | cons y rest ih =>
    intro k
    have hkey : (k + 1) + (rest.length : Int) = k + ((rest.length + 1 : Nat) : Int) := by
      push_cast
      omega
    simp only [List.cons_append, posListFrom, List.length_cons]
    rw [show rest.append [x] = rest ++ [x] from rfl, ih (k + 1), hkey]

lemma mapSet_fresh (m : List (Int × Option String)) (k : Int) (v : Option String)
    (h : m.any (fun p => p.1 == k) = false) : mapSet m k v = m ++ [(k, v)] := by
  simp [mapSet, h]

/-! ### `newNote` appends one note -/

lemma newNote_append (s : NotepadState) (props : NoteProps) (now : Int)
    (hs : Synced s) :
    (newNote s props now).1.dom.map noteFields
      = s.dom.map noteFields
        ++ [(computedNoteId s props now, noteTitleOf props, noteContentOf props,
             accentColorOf props.accentColor)]
    ∧ (newNote s props now).1.dom.map (fun e => e.id)
        = s.dom.map (fun e => e.id) ++ [computedNoteId s props now]
    ∧ (newNote s props now).1.idx
        = posList (s.dom.map (fun e => e.id) ++ [computedNoteId s props now])
    ∧ (newNote s props now).1.headerTitle = s.headerTitle
    ∧ (newNote s props now).1.notepadId = s.notepadId
    ∧ (computedNoteId s props now ≠ "" →
        (∀ id ∈ s.dom.map (fun e => e.id), id ≠ "") →
        (newNote s props now).2 = none) := by
  have hs' : s.idx = posListFrom 1 (s.dom.map (fun e => e.id)) := hs
  have hlen : s.idx.length = (s.dom.map (fun e => e.id)).length := by
    rw [hs', posListFrom_length]
  have hfresh : s.idx.any (fun p => p.1 == (s.idx.length : Int) + 1) = false := by
    rw [List.any_eq_false]
    intro p hp
    have hb := posListFrom_key_bound (s.dom.map (fun e => e.id)) 1 p (by rw [← hs']; exact hp)
    show ¬ (p.1 == (s.idx.length : Int) + 1) = true
    simp only [beq_iff_eq]
    have hl := hlen
    omega
  have hsetEq : mapSet s.idx ((s.idx.length : Int) + 1) (some (computedNoteId s props now))
      = posList (s.dom.map (fun e => e.id) ++ [computedNoteId s props now]) := by
    have hkey : ((s.idx.length : Int)) + 1 = 1 + ((s.dom.map (fun e => e.id)).length : Int) := by
      have hl := hlen
      omega
    rw [mapSet_fresh _ _ _ hfresh]
    show s.idx ++ [((s.idx.length : Int) + 1, some (computedNoteId s props now))]
        = posListFrom 1 (s.dom.map (fun e => e.id) ++ [computedNoteId s props now])
    rw [posListFrom_snoc, hkey, hs']
  have hdom : (newNote s props now).1.dom
      = (indexNotes
          (s.dom ++ [{ id := computedNoteId s props now, title := noteTitleOf props,
                       content := noteContentOf props,
                       accentColor := accentColorOf props.accentColor,
                       noteIndex := .absent }])
          (mapSet s.idx ((s.idx.length : Int) + 1) (some (computedNoteId s props now)))).1 := rfl
  have herr : (newNote s props now).2
      = (indexNotes
          (s.dom ++ [{ id := computedNoteId s props now, title := noteTitleOf props,
                       content := noteContentOf props,
                       accentColor := accentColorOf props.accentColor,
                       noteIndex := .absent }])
          (mapSet s.idx ((s.idx.length : Int) + 1) (some (computedNoteId s props now)))).2 := rfl
  refine ⟨?_, ?_, hsetEq, rfl, rfl, ?_⟩
  · rw [hdom, indexNotes_map_inv noteFields (fun e k => rfl), List.map_append]
    rfl
  · rw [hdom, indexNotes_map_inv (fun e => e.id) (fun e k => rfl), List.map_append]
    rfl
  · intro hne hall
    rw [herr]
    apply indexNotes_ok
    rw [hsetEq]
    intro p hp
    obtain ⟨id, hpv, hpm⟩ :=
      posListFrom_values (s.dom.map (fun e => e.id) ++ [computedNoteId s props now]) 1 p hp
    refine ⟨id, hpv, ?_, ?_⟩
    · rcases List.mem_append.mp hpm with h | h
      · exact hall id h
      · rw [List.mem_singleton.mp h]
        exact hne
    · rw [List.map_append]
      rcases List.mem_append.mp hpm with h | h
      · exact List.mem_append.mpr (Or.inl h)
      · refine List.mem_append.mpr (Or.inr ?_)
        simpa using h

/-! ### `#fillNotepad` re-inserts the record notes in order -/

lemma fillNotes_fold (notes : List NoteRecord) :
    ∀ (s : NotepadState) (now : Int), Synced s →
      (∀ id ∈ s.dom.map (fun e => e.id), id ≠ "") →
      (∀ nr ∈ notes, nr.id ≠ "") →
      (notes.foldl (fillStep now) (s, none)).2 = none
      ∧ (notes.foldl (fillStep now) (s, none)).1.dom.map noteFields
          = s.dom.map noteFields ++ notes.map recFields
      ∧ (notes.foldl (fillStep now) (s, none)).1.dom.map (fun e => e.id)
          = s.dom.map (fun e => e.id) ++ notes.map (fun nr => nr.id)
      ∧ Synced (notes.foldl (fillStep now) (s, none)).1
      ∧ (notes.foldl (fillStep now) (s, none)).1.headerTitle = s.headerTitle
      ∧ (notes.foldl (fillStep now) (s, none)).1.notepadId = s.notepadId := by
  induction notes with
  | nil =>
    intro s now hs hne _
    refine ⟨rfl, by simp, by simp, hs, rfl, rfl⟩
  | cons nr rest ih =>
    intro s now hs hne hnr
    have hid : computedNoteId s (recordProps nr) now = nr.id := by
      have hb : (nr.id != "") = true := by
        simpa using hnr nr (List.mem_cons_self _ _)
      simp [computedNoteId, recordProps, hb]
    obtain ⟨hfields, hids, hidx, hheader, hnpid, hok⟩ := newNote_append s (recordProps nr) now hs
    have herr : (newNote s (recordProps nr) now).2 = none := by
      apply hok
      · rw [hid]
        exact hnr nr (List.mem_cons_self _ _)
      · exact hne
    have hacc : fillStep now (s, none) nr = ((newNote s (recordProps nr) now).1, none) := by
      show newNote s (recordProps nr) now = _
      rw [← herr]
    have hsync : Synced (newNote s (recordProps nr) now).1 := by
      show (newNote s (recordProps nr) now).1.idx
        = posList ((newNote s (recordProps nr) now).1.dom.map (fun e => e.id))
      rw [hidx, hids]
    have hne' : ∀ id ∈ (newNote s (recordProps nr) now).1.dom.map (fun e => e.id), id ≠ "" := by
      intro id hmem
      rw [hids] at hmem
      rcases List.mem_append.mp hmem with h | h
      · exact hne id h
      · rw [List.mem_singleton.mp h, hid]
        exact hnr nr (List.mem_cons_self _ _)
    have hnr' : ∀ x ∈ rest, x.id ≠ "" := fun x hx => hnr x (List.mem_cons_of_mem _ hx)
    obtain ⟨e1, e2, e3, e4, e5, e6⟩ := ih (newNote s (recordProps nr) now).1 now hsync hne' hnr'
    rw [List.foldl_cons, hacc]
    refine ⟨e1, ?_, ?_, e4, ?_, ?_⟩
    · rw [e2, hfields, hid]
      simp [recFields, recordProps, noteTitleOf, noteContentOf, List.append_assoc]
    · rw [e3, hids, hid]
      simp [List.append_assoc]
    · rw [e5, hheader]
    · rw [e6, hnpid]

/-! ### Claim theorem: record round-trip (C5) -/

/-- C5: serialising with `#retrieveNotepad` and loading the produced record
back with `#fillNotepad(record, clear = true)` reproduces an equivalent
notepad: same title, same notepad id, same number of notes, and the same
note ids, titles, contents and accent colors in the same (document) order;
the rebuilt index maps position `i` to the id of the `i`-th element of the
record's `notes` array.  The hypotheses say the state is one the application
itself builds: every displayed note id is non-empty (ids are either
generated non-empty or preserved non-empty on import) and every stored
accent color is already in sanitised form (`''` or a lowercased hex code) —
both facts hold of every state the exported operations produce. -/
theorem notepad_record_roundtrip (s : NotepadState) (now now2 : Int)
    (h1 : ∀ e ∈ s.dom, e.id ≠ "")
    (h2 : ∀ e ∈ s.dom, accentColorOf (some e.accentColor) = e.accentColor) :
    (fillNotepad s (retrieveNotepad s now) true now2).2 = none
    ∧ (fillNotepad s (retrieveNotepad s now) true now2).1.headerTitle = s.headerTitle
    ∧ (fillNotepad s (retrieveNotepad s now) true now2).1.notepadId = s.notepadId
    ∧ (fillNotepad s (retrieveNotepad s now) true now2).1.dom.length = s.dom.length
    ∧ (fillNotepad s (retrieveNotepad s now) true now2).1.dom.map noteFields
        = s.dom.map noteFields
    ∧ (fillNotepad s (retrieveNotepad s now) true now2).1.idx
        = posList (s.dom.map (fun e => e.id)) := by
  have hfill : fillNotepad s (retrieveNotepad s now) true now2
      = (retrieveNotepad s now).notes.foldl (fillStep now2)
          ({ notepadId := (retrieveNotepad s now).id
             created := (retrieveNotepad s now).created
             lastUpdate := (retrieveNotepad s now).lastUpdate
             headerTitle := (retrieveNotepad s now).title
             dom := []
             idx := []
             accentColors := defaultAccentColors }, none) := rfl
  have hnotes : (retrieveNotepad s now).notes
      = s.dom.map (fun e =>
          { id := e.id, title := e.title, content := e.content,
            accentColor := e.accentColor : NoteRecord }) := rfl
  have hnr : ∀ nr ∈ (retrieveNotepad s now).notes, nr.id ≠ "" := by
    rw [hnotes]
    intro nr hmem
    obtain ⟨e, he, rfl⟩ := List.mem_map.mp hmem
    exact h1 e he
  obtain ⟨e1, e2, e3, e4, e5, e6⟩ :=
    fillNotes_fold (retrieveNotepad s now).notes
      { notepadId := (retrieveNotepad s now).id
        created := (retrieveNotepad s now).created
        lastUpdate := (retrieveNotepad s now).lastUpdate
        headerTitle := (retrieveNotepad s now).title
        dom := []
        idx := []
        accentColors := defaultAccentColors }
      now2 rfl (by intro id h; cases h) hnr
  rw [hfill]
  have hrecFields : (retrieveNotepad s now).notes.map recFields = s.dom.map noteFields := by
    rw [hnotes, List.map_map]
    apply List.map_congr_left
    intro e he
    simp only [Function.comp_apply, recFields, noteFields]
    rw [h2 e he]
  have hrecIds : (retrieveNotepad s now).notes.map (fun nr => nr.id)
      = s.dom.map (fun e => e.id) := by
    rw [hnotes, List.map_map]
    rfl
  refine ⟨e1, by rw [e5]; rfl, by rw [e6]; rfl, ?_, ?_, ?_⟩
  · have := congrArg List.length e2
    simp only [List.length_map, List.nil_append, List.length_append] at this ⊢
    rw [this, hnotes]
    simp
  · rw [e2, hrecFields]
    simp
  · rw [e4, e3, hrecIds]
    simp

theorem notepad_record_roundtrip_witness :
    (∀ e ∈ (initialState 0).dom, e.id ≠ "")
    ∧ (∀ e ∈ (initialState 0).dom, accentColorOf (some e.accentColor) = e.accentColor)
    ∧ ((fillNotepad (initialState 0) (retrieveNotepad (initialState 0) 1) true 2).2 = none
       ∧ (fillNotepad (initialState 0) (retrieveNotepad (initialState 0) 1) true 2).1.headerTitle
           = (initialState 0).headerTitle
       ∧ (fillNotepad (initialState 0) (retrieveNotepad (initialState 0) 1) true 2).1.notepadId
           = (initialState 0).notepadId
       ∧ (fillNotepad (initialState 0) (retrieveNotepad (initialState 0) 1) true 2).1.dom.length
           = (initialState 0).dom.length
       ∧ (fillNotepad (initialState 0) (retrieveNotepad (initialState 0) 1) true 2).1.dom.map noteFields
           = (initialState 0).dom.map noteFields
       ∧ (fillNotepad (initialState 0) (retrieveNotepad (initialState 0) 1) true 2).1.idx
           = posList ((initialState 0).dom.map (fun e => e.id))) :=
  ⟨by decide, by decide,
   notepad_record_roundtrip (initialState 0) 1 2 (by decide) (by decide)⟩
